import Mathlib

/-
Verification of the fc-char utility (src/fc-char.c) against its
design specification.

Modelling conventions:
* C doubles are modelled as exact rationals (and, in specification
  statements, as reals).  In the ranges exercised by the layout code the
  double computations are exact, except that round(sqrt(..)) could in
  principle differ from the exact value only when the true square root is
  within one double ulp of a half-integer; no claim here depends on such a
  boundary input.  The C literal 0.2 is the nearest double to 1/5; for all
  cell heights below 2^50 the truncation (int)(bh * 0.2) agrees with
  floor(bh / 5), so FTSPACE is modelled as the exact rational 1/5.
* size_t is modelled as an unrestricted natural number (it is unsigned:
  that is the point of claim C10).
* int and long values are modelled as integers; claims are stated on
  domains where the C code has no overflow or division by zero, except
  where a claim is precisely about such a degenerate input.
* External collaborators (iconv, fontconfig, X11) are modelled by value
  parameters carrying their documented observable results.
-/

namespace FcChar

/-! ## Constants (src/fc-char.c:37, 219-227, 484-485) -/

/-- Refresh rate for the window, milliseconds (src:37). -/
def TIMEOUT : ℚ := 100

/-- Vertical padding in pixels (src:219). -/
def VPADDING : ℤ := 5

/-- Horizontal padding in pixels (src:221). -/
def HPADDING : ℤ := 5

/-- Fraction of a cell reserved for the font name (src:223, C literal 0.2). -/
def FTSPACE : ℚ := 1 / 5

/-! ## Command-line arguments (src:40-48, 78-152) -/

/-- The global `args` record (src:40-48). -/
structure Args where
  display : Bool
  maxfonts : ℤ
  debug : Bool
  showname : Bool
  showannot : Bool
  printfonts : Bool
  fixed : Bool
deriving DecidableEq, Repr

/-- Initialiser { 1, 0, 0, 0, 0, 0, 0 } (src:48). -/
def argsInit : Args :=
  { display := true, maxfonts := 0, debug := false, showname := false
    showannot := false, printfonts := false, fixed := false }

/-- One option recognised by getopt_long (src:84-96). -/
inductive Opt where
  | h
  | N
  | m (v : ℤ)
  | d
  | n
  | a
  | p
  | f
deriving DecidableEq, Repr

/-- Embedding of parse_arguments (src:78-152).  getopt_long is external and
is modelled by the list of recognised options it yields, in order;
`positional` is the index of the first non-option argument when one exists
(the optind < argc test of src:143).  The help case prints the usage text
and returns -1 (src:100-113).  Note the missing break at src:135-137: the
case for option p falls through into the case for option f, so --print
also sets the fixed flag. -/
def parse_arguments : List Opt → Option ℕ → Args → Args × ℤ
  | [], some i, acc => (acc, (i : ℤ))
  | [], none, acc => (acc, -1)
  | Opt.h :: _, _, acc => (acc, -1)
  | Opt.N :: rest, pos, acc => parse_arguments rest pos { acc with display := false }
  | Opt.m v :: rest, pos, acc => parse_arguments rest pos { acc with maxfonts := v }
  | Opt.d :: rest, pos, acc => parse_arguments rest pos { acc with debug := true }
  | Opt.n :: rest, pos, acc => parse_arguments rest pos { acc with showname := true }
  | Opt.a :: rest, pos, acc => parse_arguments rest pos { acc with showannot := true }
  | Opt.p :: rest, pos, acc =>
      parse_arguments rest pos { acc with printfonts := true, fixed := true }
  | Opt.f :: rest, pos, acc => parse_arguments rest pos { acc with fixed := true }

/-! ## Character conversion (src:319-361) -/

/-- Lowercase hexadecimal digit, as produced by printf %x. -/
def hexDigitChar (n : ℕ) : Char :=
  if n < 10 then Char.ofNat (48 + n) else Char.ofNat (87 + n)

/-- Hexadecimal digit list of a natural number, most significant first,
with explicit fuel to keep the recursion structural; fuel n + 1 always
suffices. -/
def hexDigitListAux : ℕ → ℕ → List Char
  | 0, _ => []
  | fuel + 1, n =>
    if n < 16 then [hexDigitChar n]
    else hexDigitListAux fuel (n / 16) ++ [hexDigitChar (n % 16)]

/-- Hexadecimal digit list of a natural number (printf %x, lowercase). -/
def hexDigitList (n : ℕ) : List Char := hexDigitListAux (n + 1) n

/-- printf %0wx: lowercase hex, left-padded with zeros to width w. -/
def sprintfHex (w : ℕ) (n : ℕ) : String :=
  let ds := hexDigitList n
  String.mk (List.replicate (w - ds.length) '0' ++ ds)

/-- Embedding of convert_char (src:326-361).  iconv is an external
collaborator: `openOk` models whether iconv_open("UTF32LE", "") succeeds
(src:328-332); `converted` is the size_t value returned by iconv
(2^64 - 1, i.e. (size_t)-1, on a conversion error); `uchar` is the
little-endian uint32 found in the 10-byte output buffer after the call
(0 whenever iconv wrote nothing, since outbuf is zero-initialised,
src:336).  The result is the C return value paired with the
(uchar, output string) data if execution reaches the writes at
src:346-351, none otherwise.  The test at src:341 compares the unsigned
size_t `converted` against 0. -/
def convert_char (openOk : Bool) (converted : ℕ) (uchar : ℕ) : ℤ × Option (ℕ × String) :=
  if openOk = false then (-1, none)
  else if converted < 0 then (-1, none)
  else
    let output := if uchar ≤ 0xFFFF then "U+" ++ sprintfHex 4 uchar
                  else "U+" ++ sprintfHex 8 uchar
    if uchar = 0 then (0, some (uchar, output))
    else (1, some (uchar, output))

/-- Value of a hexadecimal digit character, if it is one. -/
def hexVal (c : Char) : Option ℕ :=
  if 48 ≤ c.toNat ∧ c.toNat ≤ 57 then some (c.toNat - 48)
  else if 97 ≤ c.toNat ∧ c.toNat ≤ 102 then some (c.toNat - 87)
  else if 65 ≤ c.toNat ∧ c.toNat ≤ 70 then some (c.toNat - 55)
  else none

/-- Accumulate leading hexadecimal digits. -/
def strtolHexAux : List Char → ℕ → ℕ
  | [], acc => acc
  | c :: rest, acc =>
    match hexVal c with
    | some v => strtolHexAux rest (acc * 16 + v)
    | none => acc

/-- Embedding of (uint32_t)strtol(s, NULL, 16) (src:606): parse the leading hexadecimal
digits (strtol also skips whitespace and an optional sign, which no claim
exercises), clamp to LONG_MAX, truncate to 32 bits.  A string with no
leading hex digit yields 0. -/
def strtolHexU32 (s : List Char) : ℕ :=
  (min (strtolHexAux s 0) (2 ^ 63 - 1)) % 2 ^ 32

/-- The character globals written by parse_character (src:68-70):
global.hexchar and global.character. -/
structure ParsedChar where
  hexchar : String
  character : ℕ
deriving DecidableEq, Repr

/-- strstr(s, p) == s, that is: p occurs in s at offset 0 (src:594-600). -/
def strHead : List Char → List Char → Bool
  | [], _ => true
  | _ :: _, [] => false
  | c :: ps, d :: ss => c == d && strHead ps ss

/-- Embedding of parse_character (src:591-615).  The hex-token test
(src:594-600) checks whether the token starts with 0x, 0X or U+.  On the
hex path the token is copied into the 11-byte hexchar buffer and its first
two characters are overwritten with U+ (src:603-605; faithful for tokens
of length at most 10), and the code point is strtol of the remainder
(src:606).  On the literal path convert_char is called and a return value
of 0 - and only 0 - is treated as failure (src:608): the message
"Failed to convert character encoding." is printed and -1 returned.  The
globals keep their zero-initialised values ("" and 0) when convert_char
returns before writing them. -/
def parse_character (s : String) (openOk : Bool) (converted uchar : ℕ) : ParsedChar × ℤ :=
  if strHead "0x".data s.data || strHead "0X".data s.data || strHead "U+".data s.data then
    ({ hexchar := String.mk ('U' :: '+' :: s.data.drop 2)
       character := strtolHexU32 (s.data.drop 2) }, 0)
  else
    let r := convert_char openOk converted uchar
    let pc : ParsedChar :=
      { hexchar := (r.2.map Prod.snd).getD "", character := (r.2.map Prod.fst).getD 0 }
    if r.1 = 0 then (pc, -1) else (pc, 0)

/-! ## Font matching (src:620-643) -/

/-- One installed font as observed through fontconfig: the result of
FcPatternFormat "%(family[0])" (none models a formatting failure), the
FC_SCALABLE property, and the supported code points. -/
structure Font where
  family : Option String
  scalable : Bool
  charset : List ℕ
deriving DecidableEq, Repr

/-- Embedding of generate_fontset (src:620-643) together with the
documented fontconfig semantics of the constructed pattern: FcFontList
returns the installed fonts whose charset contains the character
(src:630-632) and which are scalable unless args.fixed is set
(src:626-628), in fontconfig listing order (the input order here). -/
def generate_fontset (installed : List Font) (character : ℕ) (fixed : Bool) : List Font :=
  installed.filter fun fo => fo.charset.contains character && (fixed || fo.scalable)

/-! ## Grid layout (src:209-317) -/

/-- (int)round(sqrt(q)) computed on exact rationals: the integer nearest
to the square root of q (halves rounding up).  Proved below to agree with
round (Real.sqrt q) for q ≥ 0. -/
def sqrtRound (q : ℚ) : ℕ :=
  (Nat.sqrt (Int.toNat ⌊4 * q⌋) + 1) / 2

/-- Effective number of fonts to render (src:230).  args.maxfonts is
truthiness-tested: any nonzero value, including a negative one, takes the
first branch. -/
def grid_count (maxfonts nfont : ℤ) : ℤ :=
  if maxfonts ≠ 0 ∧ maxfonts < nfont then maxfonts else nfont

/-- The integer geometry computed by generate_grid (src:229-248). -/
structure GridParams where
  c : ℤ
  nw : ℤ
  nh : ℤ
  bw : ℤ
  bh : ℤ
  fh : ℤ
  ch : ℤ
  frh : ℤ
  crh : ℤ
  cw : ℤ
deriving DecidableEq, Repr

/-- Embedding of the geometry block of generate_grid (src:229-248).  The
(int) casts truncate toward zero, which agrees with the floor on the
nonnegative values arising on the domains of the claims. -/
def grid_layout (maxfonts nfont : ℤ) (width height : ℕ) : GridParams :=
  let c := grid_count maxfonts nfont
  let nw : ℤ := (sqrtRound ((c * width : ℚ) / (height : ℚ)) : ℤ)
  let nh : ℤ := round ((c : ℚ) / (nw : ℚ))
  let bw : ℤ := ⌊(width : ℚ) / (nw : ℚ)⌋
  let bh : ℤ := ⌊(height : ℚ) / (nh : ℚ)⌋
  let fh : ℤ := ⌊(bh : ℚ) * FTSPACE⌋
  let ch : ℤ := bh - fh
  let frh : ℤ := fh - 2 * VPADDING
  let crh : ℤ := ch - 2 * VPADDING
  let cw : ℤ := bw - 2 * HPADDING
  { c := c, nw := nw, nh := nh, bw := bw, bh := bh, fh := fh, ch := ch
    frh := frh, crh := crh, cw := cw }

/-- Embedding of the result of generate_grid (src:216-317): it returns -1
(modelled none), aborting the repaint, exactly when a usable band
dimension is ≤ 0 (src:253-255); otherwise the geometry is used to render
the cells.  The rendering loop itself is pure drawing and is not
modelled. -/
def generate_grid (maxfonts nfont : ℤ) (width height : ℕ) : Option GridParams :=
  let g := grid_layout maxfonts nfont width height
  if g.frh ≤ 0 ∨ g.crh ≤ 0 ∨ g.cw ≤ 0 then none else some g

/-! ## Printing and main (src:646-769) -/

/-- The print-path cap on the number of fonts, local variable end of main
(src:746-748): positive maxfonts values cap the list, everything else
leaves it whole. -/
def print_count (maxfonts nfont : ℤ) : ℤ :=
  if 0 < maxfonts ∧ maxfonts < nfont then maxfonts else nfont

/-- The font-family print loop (src:751-762): prints the family of each
font in order, aborting with exit status 1 at the first FcPatternFormat
failure.  Returns the printed lines and the exit status contribution. -/
def print_families : List Font → List String × ℤ
  | [] => ([], 0)
  | fo :: rest =>
    match fo.family with
    | none => ([], 1)
    | some s =>
      let r := print_families rest
      (s :: r.1, r.2)

/-- Observables of one run of main. -/
structure MainResult where
  exitCode : ℤ
  fontQueryRun : Bool
  printedFamilies : List String
deriving DecidableEq, Repr

/-- Embedding of main (src:669-769) for the observables the claims are
about.  `cchar` is argv[cindex] when a positional argument exists.  Note
src:680-681: the return value of parse_character is discarded and
generate_fontset runs unconditionally right after it.  The X11 event loop
(src:683-728) changes none of these observables and is modelled separately
by the paint-state functions; the name and annot printing (src:730-744)
are plain table lookups and are not modelled. -/
def main_run (opts : List Opt) (cchar : Option String) (openOk : Bool)
    (converted uchar : ℕ) (installed : List Font) : MainResult :=
  let pr := parse_arguments opts (cchar.map fun _ => 1) argsInit
  let a := pr.1
  if pr.2 < 0 then { exitCode := 1, fontQueryRun := false, printedFamilies := [] }
  else
    let pc := (parse_character (cchar.getD "") openOk converted uchar).1
    let fs := generate_fontset installed pc.character a.fixed
    let endCount := print_count a.maxfonts (fs.length : ℤ)
    if a.printfonts then
      let pres := print_families (fs.take endCount.toNat)
      { exitCode := pres.2, fontQueryRun := true, printedFamilies := pres.1 }
    else { exitCode := 0, fontQueryRun := true, printedFamilies := [] }

/-! ## Event-loop paint state (src:555-569) -/

/-- The view-state globals touched by the repaint logic (src:62-63). -/
structure PaintState where
  lastpaint : ℚ
  dirty : Bool
deriving DecidableEq, Repr

/-- Embedding of maybe_paint_window (src:555-569): at time `now`
(milliseconds), paint_window is called, dirty is cleared and lastpaint is
stamped exactly when strictly more than TIMEOUT milliseconds have elapsed
since lastpaint and dirty is set.  paint_window (src:482-553) returns
void and discards the error result of generate_grid (src:543), so no
success or failure information reaches this function.  Returns the new
state and whether paint_window was called. -/
def maybe_paint_window (now : ℚ) (s : PaintState) : PaintState × Bool :=
  if now - s.lastpaint > TIMEOUT ∧ s.dirty = true then
    ({ lastpaint := now, dirty := false }, true)
  else (s, false)

/-! ## Helper lemmas -/

theorem hexDigitListAux_length_le (k : ℕ) :
    ∀ fuel n : ℕ, n < 16 ^ (k + 1) → n < fuel →
      (hexDigitListAux fuel n).length ≤ k + 1 := by
  induction k with
  | zero =>
    intro fuel n hn hf
    match fuel with
    | 0 => omega
    | fuel + 1 =>
      unfold hexDigitListAux
      rw [if_pos (by simpa using hn)]
      simp
  | succ k ih =>
    intro fuel n hn hf
    match fuel with
    | 0 => omega
    | fuel + 1 =>
      unfold hexDigitListAux
      by_cases h16 : n < 16
      · rw [if_pos h16]; simp
      · rw [if_neg h16]
        rw [List.length_append, List.length_singleton]
        have hdiv : n / 16 < 16 ^ (k + 1) := by
          rw [Nat.div_lt_iff_lt_mul (by norm_num)]
          calc n < 16 ^ (k + 1 + 1) := hn
          _ = 16 ^ (k + 1) * 16 := by rw [pow_succ]
        have hfu : n / 16 < fuel := by
          have := Nat.div_lt_self (by omega : 0 < n) (by norm_num : 1 < 16)
          omega
        have := ih fuel (n / 16) hdiv hfu
        omega

theorem hexDigitList_length_le (k n : ℕ) (hn : n < 16 ^ (k + 1)) :
    (hexDigitList n).length ≤ k + 1 :=
  hexDigitListAux_length_le k (n + 1) n hn (by omega)

theorem sprintfHex_length (w n : ℕ) (h : (hexDigitList n).length ≤ w) :
    (sprintfHex w n).length = w := by
  unfold sprintfHex
  show (String.mk (List.replicate (w - (hexDigitList n).length) '0' ++
    hexDigitList n)).length = w
  show (List.replicate (w - (hexDigitList n).length) '0' ++ hexDigitList n).length = w
  rw [List.length_append, List.length_replicate]
  omega

/-- The c, nw, nh, bw, bh fields of grid_layout, unfolded. -/
theorem grid_layout_c (m f : ℤ) (W H : ℕ) :
    (grid_layout m f W H).c = grid_count m f := rfl

theorem grid_layout_nw (m f : ℤ) (W H : ℕ) :
    (grid_layout m f W H).nw =
      ((sqrtRound ((grid_count m f * W : ℚ) / (H : ℚ)) : ℕ) : ℤ) := rfl

theorem grid_layout_nh (m f : ℤ) (W H : ℕ) :
    (grid_layout m f W H).nh =
      round ((grid_count m f : ℚ) / ((grid_layout m f W H).nw : ℚ)) := rfl

theorem grid_layout_bw (m f : ℤ) (W H : ℕ) :
    (grid_layout m f W H).bw = ⌊(W : ℚ) / ((grid_layout m f W H).nw : ℚ)⌋ := rfl

theorem grid_layout_bh (m f : ℤ) (W H : ℕ) :
    (grid_layout m f W H).bh = ⌊(H : ℚ) / ((grid_layout m f W H).nh : ℚ)⌋ := rfl

theorem grid_layout_fh (m f : ℤ) (W H : ℕ) :
    (grid_layout m f W H).fh = ⌊((grid_layout m f W H).bh : ℚ) * FTSPACE⌋ := rfl

theorem grid_layout_frh (m f : ℤ) (W H : ℕ) :
    (grid_layout m f W H).frh = (grid_layout m f W H).fh - 2 * VPADDING := rfl

theorem grid_layout_crh (m f : ℤ) (W H : ℕ) :
    (grid_layout m f W H).crh =
      ((grid_layout m f W H).bh - (grid_layout m f W H).fh) - 2 * VPADDING := rfl

theorem grid_layout_cw (m f : ℤ) (W H : ℕ) :
    (grid_layout m f W H).cw = (grid_layout m f W H).bw - 2 * HPADDING := rfl

/-- sqrtRound is at least 1 as soon as its argument is at least 1/4. -/
theorem one_le_sqrtRound (q : ℚ) (h : 1 ≤ 4 * q) : 1 ≤ sqrtRound q := by
  unfold sqrtRound
  have h1 : (1 : ℤ) ≤ ⌊4 * q⌋ := by
    rw [Int.le_floor]; exact_mod_cast h
  have h2 : 1 ≤ Int.toNat ⌊4 * q⌋ := by omega
  have h3 : 1 ≤ Nat.sqrt (Int.toNat ⌊4 * q⌋) := Nat.le_sqrt.2 (by omega)
  omega

/-- sqrtRound is at most j when the argument is below (j + 1/2) squared. -/
theorem sqrtRound_le (q : ℚ) (j : ℕ)
    (h : 4 * q < (((2 * j + 1) * (2 * j + 1) : ℕ) : ℚ)) : sqrtRound q ≤ j := by
  unfold sqrtRound
  have h1 : ⌊4 * q⌋ < (((2 * j + 1) * (2 * j + 1) : ℕ) : ℤ) := by
    rw [Int.floor_lt]; exact_mod_cast h
  have h2 : Int.toNat ⌊4 * q⌋ < (2 * j + 1) * (2 * j + 1) := by
    have hM1 : 0 < (2 * j + 1) * (2 * j + 1) := by positivity
    generalize hM : (2 * j + 1) * (2 * j + 1) = M at h1 hM1 ⊢
    omega
  have h3 : Nat.sqrt (Int.toNat ⌊4 * q⌋) < 2 * j + 1 := Nat.sqrt_lt.2 h2
  omega

/-! ## Claim C10 -/

/-- C10: in convert_char, the test that the number of converted characters
is negative (src:341) can never succeed, because iconv returns an unsigned
size_t; consequently convert_char never returns -1 once iconv_open has
succeeded - even when iconv reports a conversion error by returning
(size_t)-1 - so iconv-level conversion errors are never detected. -/
theorem c10_iconv_error_branch_unreachable (converted uchar : ℕ) :
    (convert_char true converted uchar).1 ≠ -1 ∧
    ((convert_char true converted uchar).1 = 0 ∨ (convert_char true converted uchar).1 = 1) := by
  unfold convert_char
  simp only [Bool.true_eq_false, if_false, Nat.not_lt_zero, if_neg (by omega : ¬ converted < 0)]
  by_cases h : uchar = 0 <;> simp [h]

/-! ## Claim C1 -/

/-- C1 (code bug): the claim says that when text-encoding conversion of a
literal character fails the program reports a fatal error and performs no
font query.  In the code, convert_char does return -1 when iconv_open
fails (after printing an error), but parse_character only treats return
value 0 as failure, so the -1 outcome passes as success; moreover main
discards the return value of parse_character (src:680) and always calls
generate_fontset (src:681).  Evaluated at the failing input: a literal
token "A" with a failing iconv_open. -/
theorem c1_conversion_failure_still_queries_fonts :
    (convert_char false 0 0).1 = -1 ∧
    (parse_character "A" false 0 0).2 = 0 ∧
    (main_run [] (some "A") false 0 0 []).fontQueryRun = true := by
  refine ⟨rfl, ?_, ?_⟩ <;> rfl

/-! ## Claim C8 -/

/-- C8 (code bug): the claim says a successfully converted code point of 0
is reported informationally and treated as success.  convert_char indeed
prints "Glyph result was 0." and returns 0 with the display form written
(src:355-358), but parse_character treats exactly this return value as a
conversion failure (src:608): it prints
"Failed to convert character encoding." and returns -1.  The program still
proceeds with code point 0 downstream only because main ignores that -1.
Evaluated at the failing input: an empty positional argument, which iconv
converts to nothing, leaving the zero-initialised buffer. -/
theorem c8_zero_codepoint_treated_as_failure :
    (convert_char true 0 0).1 = 0 ∧
    (convert_char true 0 0).2 = some (0, "U+0000") ∧
    (parse_character "" true 0 0).2 = -1 ∧
    (main_run [] (some "") true 0 0 []).fontQueryRun = true := by
  refine ⟨rfl, ?_, ?_, ?_⟩ <;> rfl

/-! ## Claim C3 -/

/-- C3 (code bug): the claim says --print only prints family names and
does not alter the matching criteria.  Because case p of parse_arguments
falls through into case f (missing break, src:135-140), passing -p also
sets args.fixed, and a non-scalable font then becomes eligible even though
--fixed was never given. -/
theorem c3_print_flag_enables_fixed_fonts :
    ((parse_arguments [Opt.p] (some 1) argsInit).1.fixed = true ∧
     (parse_arguments [Opt.f] (some 1) argsInit).1.printfonts = false) ∧
    generate_fontset [{ family := some "Bitmap", scalable := false, charset := [65] }] 65
        (parse_arguments [Opt.p] (some 1) argsInit).1.fixed =
      [{ family := some "Bitmap", scalable := false, charset := [65] }] ∧
    generate_fontset [{ family := some "Bitmap", scalable := false, charset := [65] }] 65
        false = [] := by
  refine ⟨⟨rfl, rfl⟩, ?_, ?_⟩ <;> rfl

/-! ## Claim C4 -/

/-- C4 counterexample: invoking with --help does not exit with status 0;
parse_arguments returns -1 from the help case (src:112) and main then
takes the missing-argument path and returns 1 (src:674-678). -/
theorem c4_counterexample :
    (parse_arguments [Opt.h] (some 1) argsInit).2 = -1 ∧
    (main_run [Opt.h] (some "0x41") true 0 0 []).exitCode = 1 := by
  exact ⟨rfl, rfl⟩

/-- C4 amended: --help prints the usage text and then exits with status 1,
through the same path as a missing positional argument (parse_arguments
returns -1 in both cases and main prints the missing-argument message and
returns 1); a missing positional argument likewise exits with status 1. -/
theorem c4_amended (rest opts : List Opt) (pos : Option ℕ) (acc : Args)
    (cchar : Option String) (openOk : Bool) (converted uchar : ℕ)
    (installed : List Font) :
    (parse_arguments (Opt.h :: rest) pos acc).2 = -1 ∧
    (parse_arguments opts none acc).2 = -1 ∧
    main_run (Opt.h :: rest) cchar openOk converted uchar installed =
      { exitCode := 1, fontQueryRun := false, printedFamilies := [] } ∧
    main_run opts none openOk converted uchar installed =
      { exitCode := 1, fontQueryRun := false, printedFamilies := [] } := by
  have hnone : ∀ (l : List Opt) (b : Args), (parse_arguments l none b).2 = -1 := by
    intro l
    induction l with
    | nil => intro b; rfl
    | cons o rest ih =>
      intro b
      cases o <;> simp only [parse_arguments] <;> first | rfl | exact ih _
  refine ⟨rfl, hnone opts acc, ?_, ?_⟩
  · simp only [main_run, parse_arguments]
    norm_num
  · simp only [main_run, Option.map_none']
    rw [hnone opts argsInit]
    norm_num

/-! ## Claim C7 -/

/-- C7 counterexample: with --maxfonts=-1 and 5 matched fonts, the claim
predicts an effective count of 5 for both the grid and the print list
(maxfonts is set but not positive), but the grid count of src:230
truthiness-tests maxfonts and yields -1 (no cell is drawn), while the
print path yields 5: the two paths disagree and the grid path contradicts
the claim. -/
theorem c7_counterexample :
    grid_count (-1) 5 = -1 ∧
    print_count (-1) 5 = 5 ∧
    grid_count (-1) 5 ≠ print_count (-1) 5 := by
  refine ⟨rfl, rfl, by decide⟩

/-- C7 amended: for a nonnegative --maxfonts value the grid and print
paths agree and both equal min(maxCount, |fonts|) when maxCount is
positive and |fonts| otherwise; the grid path alone treats a negative
maxfonts as the count (drawing no cells).  The end-to-end example holds:
--nodisplay --print -m2 for a code point matched by five fonts prints
exactly the first two family names, in the order returned by the matcher. -/
theorem c7_amended (m f : ℤ) (hm : 0 ≤ m) (fam1 fam2 fam3 fam4 fam5 : String) :
    grid_count m f = print_count m f ∧
    print_count m f = (if 0 < m ∧ m < f then m else f) ∧
    (main_run [Opt.N, Opt.p, Opt.m 2] (some "0x41") true 0 0
        [{ family := some fam1, scalable := true, charset := [65] },
         { family := some fam2, scalable := true, charset := [65] },
         { family := some fam3, scalable := true, charset := [65] },
         { family := some fam4, scalable := true, charset := [65] },
         { family := some fam5, scalable := true, charset := [65] }]).printedFamilies =
      [fam1, fam2] := by
  refine ⟨?_, rfl, ?_⟩
  · unfold grid_count print_count
    rcases lt_or_eq_of_le hm with h | h
    · have : (m ≠ 0 ∧ m < f) ↔ (0 < m ∧ m < f) := by constructor <;> rintro ⟨h1, h2⟩ <;>
        exact ⟨by omega, h2⟩
      rw [if_congr this rfl rfl]
    · subst h; norm_num
  · rfl

/-- C7 witness: the amended theorem applied at maxfonts 2, five fonts. -/
theorem c7_amended_witness :
    (0 : ℤ) ≤ 2 ∧
    (grid_count 2 5 = print_count 2 5 ∧
     print_count 2 5 = (if (0 : ℤ) < 2 ∧ (2 : ℤ) < 5 then 2 else 5) ∧
     (main_run [Opt.N, Opt.p, Opt.m 2] (some "0x41") true 0 0
        [{ family := some "F1", scalable := true, charset := [65] },
         { family := some "F2", scalable := true, charset := [65] },
         { family := some "F3", scalable := true, charset := [65] },
         { family := some "F4", scalable := true, charset := [65] },
         { family := some "F5", scalable := true, charset := [65] }]).printedFamilies =
      ["F1", "F2"]) :=
  ⟨by norm_num, c7_amended 2 5 (by norm_num) "F1" "F2" "F3" "F4" "F5"⟩

/-! ## Claim C9 -/

/-- C9 counterexample: a repaint attempt whose grid generation fails (a
10 by 10 grid area with 50 fonts, the degenerate-geometry error of
src:253-255) still clears the dirty flag: paint_window discards
the result of generate_grid (src:543) and maybe_paint_window clears dirty
unconditionally after calling it (src:564-568).  The claim that a failed
repaint leaves the dirty flag set is false. -/
theorem c9_counterexample :
    generate_grid 0 50 10 10 = none ∧
    maybe_paint_window 200 { lastpaint := 0, dirty := true } =
      ({ lastpaint := 200, dirty := false }, true) := by
  have hsq : Nat.sqrt 200 = 14 := (Nat.eq_sqrt.2 (by norm_num)).symm
  have hg : grid_layout 0 50 10 10 =
      { c := 50, nw := 7, nh := 7, bw := 1, bh := 1, fh := 0, ch := 1
        frh := -10, crh := -9, cw := -9 } := by
    unfold grid_layout grid_count sqrtRound
    have ht : (200 : ℤ).toNat = 200 := rfl
    norm_num [round_eq, ht, hsq, FTSPACE, VPADDING, HPADDING,
      GridParams.mk.injEq]
  constructor
  · unfold generate_grid
    rw [hg]
    norm_num
  · unfold maybe_paint_window TIMEOUT
    rw [if_pos (by norm_num)]

/-- C9 amended: on a timeout tick a repaint is attempted exactly when the
dirty flag is set and strictly more than the 100 ms TIMEOUT has elapsed
since the last paint, and the dirty flag is cleared exactly when a repaint
is attempted - regardless of whether the repaint succeeded, since
paint_window returns no success indication and discards the error of generate_grid
error. -/
theorem c9_amended (now : ℚ) (s : PaintState) :
    ((maybe_paint_window now s).2 = true ↔
      (now - s.lastpaint > TIMEOUT ∧ s.dirty = true)) ∧
    ((maybe_paint_window now s).1.dirty = false ↔
      (s.dirty = false ∨ (maybe_paint_window now s).2 = true)) := by
  unfold maybe_paint_window
  by_cases h : now - s.lastpaint > TIMEOUT ∧ s.dirty = true
  · rw [if_pos h]
    simp [h]
  · rw [if_neg h]
    refine ⟨⟨fun hb => absurd hb (by simp), fun hc => absurd hc h⟩, ?_, ?_⟩
    · intro hd; exact Or.inl hd
    · rintro (hd | hb)
      · exact hd
      · exact absurd hb (by simp)

/-! ## Claim C2 -/

/-- C2 counterexample: resolving the hex token 0x41 yields code point 65
but display form U+41, not the zero-padded U+0041 the claim requires: the
hex path copies the token and only replaces its first two characters with
U+ (src:603-605), it never re-formats the digits. -/
theorem c2_counterexample :
    (parse_character "0x41" true 0 0).1.character = 65 ∧
    (parse_character "0x41" true 0 0).1.hexchar = "U+41" ∧
    (parse_character "0x41" true 0 0).1.hexchar ≠ "U+0041" := by
  refine ⟨rfl, rfl, by decide⟩

/-- C2 amended: only the literal-character path produces the canonical
zero-padded display form - U+ followed by exactly 4 lowercase hex digits
(6 characters) for code points up to 0xFFFF and exactly 8 digits
(10 characters) above - while the hex-token path produces the input token
with its first two characters replaced by U+, digits unchanged and
unpadded (so resolving 0x41 yields code point 65 with display form
U+41). -/
theorem c2_amended (uchar converted : ℕ) (hu : uchar < 2 ^ 32) (s : String)
    (hs : (strHead "0x".data s.data || strHead "0X".data s.data
           || strHead "U+".data s.data) = true) :
    (((convert_char true converted uchar).2.map Prod.snd).getD "").length =
      (if uchar ≤ 0xFFFF then 6 else 10) ∧
    (parse_character s true converted uchar).1.hexchar =
      String.mk ('U' :: '+' :: s.data.drop 2) ∧
    (parse_character s true converted uchar).1.character =
      strtolHexU32 (s.data.drop 2) := by
  refine ⟨?_, ?_, ?_⟩
  · unfold convert_char
    rw [if_neg (by simp), if_neg (by omega)]
    have hlen : ∀ b : Bool,
        (((if uchar = 0 then ((0 : ℤ), some (uchar,
            if uchar ≤ 0xFFFF then "U+" ++ sprintfHex 4 uchar
            else "U+" ++ sprintfHex 8 uchar))
          else ((1 : ℤ), some (uchar,
            if uchar ≤ 0xFFFF then "U+" ++ sprintfHex 4 uchar
            else "U+" ++ sprintfHex 8 uchar))).2.map Prod.snd).getD "") =
          (if uchar ≤ 0xFFFF then "U+" ++ sprintfHex 4 uchar
           else "U+" ++ sprintfHex 8 uchar) := by
      intro _
      by_cases h0 : uchar = 0
      · rw [if_pos h0]; rfl
      · rw [if_neg h0]; rfl
    rw [hlen true]
    by_cases hsm : uchar ≤ 0xFFFF
    · rw [if_pos hsm, if_pos hsm, String.length_append]
      have h4 : (hexDigitList uchar).length ≤ 4 :=
        hexDigitList_length_le 3 uchar (by norm_num; omega)
      rw [sprintfHex_length 4 uchar h4]
      rfl
    · rw [if_neg hsm, if_neg hsm, String.length_append]
      have h8 : (hexDigitList uchar).length ≤ 8 :=
        hexDigitList_length_le 7 uchar (by norm_num; omega)
      rw [sprintfHex_length 8 uchar h8]
      rfl
  · unfold parse_character
    rw [if_pos hs]
  · unfold parse_character
    rw [if_pos hs]

/-- C2 witness: the amended theorem applied at code point 65 and hex token
0x41. -/
theorem c2_amended_witness :
    (65 < 2 ^ 32 ∧
     (strHead "0x".data ("0x41" : String).data
      || strHead "0X".data ("0x41" : String).data
      || strHead "U+".data ("0x41" : String).data) = true) ∧
    ((((convert_char true 0 65).2.map Prod.snd).getD "").length =
       (if (65 : ℕ) ≤ 0xFFFF then 6 else 10) ∧
     (parse_character "0x41" true 0 65).1.hexchar =
       String.mk ('U' :: '+' :: ("0x41" : String).data.drop 2) ∧
     (parse_character "0x41" true 0 65).1.character =
       strtolHexU32 (("0x41" : String).data.drop 2)) :=
  ⟨⟨by norm_num, by decide⟩, c2_amended 65 0 (by norm_num) "0x41" (by decide)⟩

/-! ## Claim C5 -/

/-- sqrtRound agrees with the integer round of the real square root on
nonnegative rationals: the exact-rational layout model computes the same
integers as the real-number formulas of the specification. -/
theorem sqrtRound_eq_round_sqrt (q : ℚ) (hq : 0 ≤ q) :
    ((sqrtRound q : ℕ) : ℤ) = round (Real.sqrt ((q : ℚ) : ℝ)) := by
  have hq4 : (0 : ℚ) ≤ 4 * q := by positivity
  have hfl0 : (0 : ℤ) ≤ ⌊(4 : ℚ) * q⌋ := Int.floor_nonneg.2 hq4
  rw [round_eq]
  unfold sqrtRound
  have hmZ : ((Int.toNat ⌊(4 : ℚ) * q⌋ : ℕ) : ℤ) = ⌊(4 : ℚ) * q⌋ :=
    Int.toNat_of_nonneg hfl0
  have hm_le : ((Int.toNat ⌊(4 : ℚ) * q⌋ : ℕ) : ℚ) ≤ 4 * q := by
    calc ((Int.toNat ⌊(4 : ℚ) * q⌋ : ℕ) : ℚ) = ((⌊(4 : ℚ) * q⌋ : ℤ) : ℚ) := by
          exact_mod_cast hmZ
    _ ≤ 4 * q := Int.floor_le _
  have hm_gt : 4 * q < ((Int.toNat ⌊(4 : ℚ) * q⌋ : ℕ) : ℚ) + 1 := by
    calc 4 * q < ((⌊(4 : ℚ) * q⌋ : ℤ) : ℚ) + 1 := Int.lt_floor_add_one _
    _ = ((Int.toNat ⌊(4 : ℚ) * q⌋ : ℕ) : ℚ) + 1 := by
          exact_mod_cast congrArg (fun z : ℤ => (z : ℚ) + 1) hmZ.symm
  generalize hm : Int.toNat ⌊(4 : ℚ) * q⌋ = m at hm_le hm_gt ⊢
  have hk1 : Nat.sqrt m * Nat.sqrt m ≤ m := Nat.sqrt_le m
  have hk2 : m < (Nat.sqrt m + 1) * (Nat.sqrt m + 1) := Nat.lt_succ_sqrt m
  generalize hk : Nat.sqrt m = k at hk1 hk2 ⊢
  have hx4 : ((4 * q : ℚ) : ℝ) = 4 * ((q : ℚ) : ℝ) := by push_cast; ring
  have hs_lb : ((k : ℕ) : ℝ) ≤ Real.sqrt (4 * ((q : ℚ) : ℝ)) := by
    have h1 : ((k : ℕ) : ℝ) ^ 2 ≤ 4 * ((q : ℚ) : ℝ) := by
      have hkk : ((k * k : ℕ) : ℚ) ≤ 4 * q :=
        le_trans (by exact_mod_cast hk1) hm_le
      have h2 : ((k * k : ℕ) : ℝ) ≤ ((4 * q : ℚ) : ℝ) := by exact_mod_cast hkk
      rw [hx4] at h2
      calc ((k : ℕ) : ℝ) ^ 2 = ((k * k : ℕ) : ℝ) := by push_cast; ring
      _ ≤ 4 * ((q : ℚ) : ℝ) := h2
    calc ((k : ℕ) : ℝ) = Real.sqrt (((k : ℕ) : ℝ) ^ 2) :=
          (Real.sqrt_sq (by positivity)).symm
    _ ≤ Real.sqrt (4 * ((q : ℚ) : ℝ)) := Real.sqrt_le_sqrt h1
  have hs_ub : Real.sqrt (4 * ((q : ℚ) : ℝ)) < ((k : ℕ) : ℝ) + 1 := by
    have h2 : 4 * ((q : ℚ) : ℝ) < (((k : ℕ) : ℝ) + 1) ^ 2 := by
      have hmk : ((m : ℕ) : ℚ) + 1 ≤ (((k + 1) * (k + 1) : ℕ) : ℚ) := by
        exact_mod_cast hk2
      have h3 : 4 * q < (((k + 1) * (k + 1) : ℕ) : ℚ) := lt_of_lt_of_le hm_gt hmk
      have h4 : 4 * ((q : ℚ) : ℝ) < (((k + 1) * (k + 1) : ℕ) : ℝ) := by
        rw [← hx4]; exact_mod_cast h3
      calc 4 * ((q : ℚ) : ℝ) < (((k + 1) * (k + 1) : ℕ) : ℝ) := h4
      _ = (((k : ℕ) : ℝ) + 1) ^ 2 := by push_cast; ring
    calc Real.sqrt (4 * ((q : ℚ) : ℝ)) < Real.sqrt ((((k : ℕ) : ℝ) + 1) ^ 2) :=
          Real.sqrt_lt_sqrt (by positivity) h2
    _ = ((k : ℕ) : ℝ) + 1 := Real.sqrt_sq (by positivity)
  have h2s : Real.sqrt (4 * ((q : ℚ) : ℝ)) = 2 * Real.sqrt ((q : ℚ) : ℝ) := by
    rw [show (4 : ℝ) = 2 ^ 2 by norm_num,
        Real.sqrt_mul (by positivity) ((q : ℚ) : ℝ), Real.sqrt_sq (by norm_num)]
  have hsq_lb : ((k : ℕ) : ℝ) / 2 ≤ Real.sqrt ((q : ℚ) : ℝ) := by
    rw [h2s] at hs_lb; linarith
  have hsq_ub : Real.sqrt ((q : ℚ) : ℝ) < (((k : ℕ) : ℝ) + 1) / 2 := by
    rw [h2s] at hs_ub; linarith
  have hr1 : k ≤ 2 * ((k + 1) / 2) := by omega
  have hr2 : 2 * ((k + 1) / 2) ≤ k + 1 := by omega
  generalize hrk : (k + 1) / 2 = rk at hr1 hr2 ⊢
  symm
  rw [Int.floor_eq_iff]
  constructor
  · have h2r : ((rk : ℕ) : ℝ) ≤ (((k : ℕ) : ℝ) + 1) / 2 := by
      have h5 : ((2 * rk : ℕ) : ℝ) ≤ ((k + 1 : ℕ) : ℝ) := by exact_mod_cast hr2
      push_cast at h5
      linarith
    push_cast
    linarith [hsq_lb, h2r]
  · have h1r : ((k : ℕ) : ℝ) ≤ 2 * ((rk : ℕ) : ℝ) := by exact_mod_cast hr1
    push_cast
    linarith [hsq_ub, h1r]

/-- C5: the grid layout computes the column count
nw = round(sqrt(c * W / H)), the row count nh = round(c / nw), the cell
sizes bw = floor(W / nw) and bh = floor(H / nh), and generate_grid returns
an error, aborting the repaint, exactly when after the fixed 20 percent
name-band split and the 5-pixel padding insets the usable width of a band or
height is ≤ 0.  C doubles are modelled as exact reals; the domain is
restricted to layouts with nw, nh ≥ 1, where the C code divides by no
zero. -/
theorem c5_grid_layout_formulas (m f : ℤ) (W H : ℕ) (hH : 0 < H)
    (hc : 0 ≤ grid_count m f)
    (hnw : 1 ≤ (grid_layout m f W H).nw) (hnh : 1 ≤ (grid_layout m f W H).nh) :
    (grid_layout m f W H).nw =
      round (Real.sqrt ((grid_count m f : ℝ) * (W : ℝ) / (H : ℝ))) ∧
    (grid_layout m f W H).nh =
      round ((grid_count m f : ℝ) / ((grid_layout m f W H).nw : ℝ)) ∧
    (grid_layout m f W H).bw = ⌊(W : ℝ) / ((grid_layout m f W H).nw : ℝ)⌋ ∧
    (grid_layout m f W H).bh = ⌊(H : ℝ) / ((grid_layout m f W H).nh : ℝ)⌋ ∧
    (generate_grid m f W H = none ↔
      ⌊((grid_layout m f W H).bh : ℝ) * (20 / 100)⌋ - 2 * 5 ≤ 0 ∨
      ((grid_layout m f W H).bh -
        ⌊((grid_layout m f W H).bh : ℝ) * (20 / 100)⌋) - 2 * 5 ≤ 0 ∨
      (grid_layout m f W H).bw - 2 * 5 ≤ 0) := by
  have hfl : ∀ z : ℤ, ⌊(z : ℝ) * (20 / 100)⌋ = ⌊((z : ℚ) * FTSPACE : ℚ)⌋ := by
    intro z
    have hcast : ((z : ℝ) * (20 / 100)) = (((z : ℚ) * FTSPACE : ℚ) : ℝ) := by
      simp only [FTSPACE]
      push_cast
      norm_num
    rw [hcast, Rat.floor_cast]
  refine ⟨?_, ?_, ?_, ?_, ?_⟩
  · rw [grid_layout_nw]
    rw [sqrtRound_eq_round_sqrt _
      (div_nonneg (mul_nonneg (by exact_mod_cast hc) (by positivity)) (by positivity))]
    congr 1
    push_cast
    ring
  · rw [grid_layout_nh]
    rw [show ((grid_count m f : ℝ) / ((grid_layout m f W H).nw : ℝ)) =
        (((grid_count m f : ℚ) / ((grid_layout m f W H).nw : ℚ) : ℚ) : ℝ) by
      push_cast; ring]
    rw [Rat.round_cast]
  · rw [grid_layout_bw]
    rw [show ((W : ℝ) / ((grid_layout m f W H).nw : ℝ)) =
        (((W : ℚ) / ((grid_layout m f W H).nw : ℚ) : ℚ) : ℝ) by
      push_cast; ring]
    rw [Rat.floor_cast]
  · rw [grid_layout_bh]
    rw [show ((H : ℝ) / ((grid_layout m f W H).nh : ℝ)) =
        (((H : ℚ) / ((grid_layout m f W H).nh : ℚ) : ℚ) : ℝ) by
      push_cast; ring]
    rw [Rat.floor_cast]
  · have he1 : (grid_layout m f W H).frh =
        ⌊(((grid_layout m f W H).bh : ℚ) * FTSPACE : ℚ)⌋ - 2 * 5 := rfl
    have he2 : (grid_layout m f W H).crh =
        ((grid_layout m f W H).bh -
          ⌊(((grid_layout m f W H).bh : ℚ) * FTSPACE : ℚ)⌋) - 2 * 5 := rfl
    have he3 : (grid_layout m f W H).cw = (grid_layout m f W H).bw - 2 * 5 := rfl
    have hiff : generate_grid m f W H = none ↔
        ((grid_layout m f W H).frh ≤ 0 ∨ (grid_layout m f W H).crh ≤ 0 ∨
         (grid_layout m f W H).cw ≤ 0) := by
      show (if (grid_layout m f W H).frh ≤ 0 ∨ (grid_layout m f W H).crh ≤ 0 ∨
          (grid_layout m f W H).cw ≤ 0 then (none : Option GridParams)
          else some (grid_layout m f W H)) = none ↔ _
      split_ifs with hcond
      · simp [hcond]
      · simp [hcond]
    rw [hiff, he1, he2, he3, hfl]

/-- Evaluation of the layout at five fonts in an 800 by 600 grid area:
three columns, two rows. -/
theorem grid_layout_eval_800_600 :
    (grid_layout 0 5 800 600).nw = 3 ∧ (grid_layout 0 5 800 600).nh = 2 := by
  have hsq : Nat.sqrt 26 = 5 := (Nat.eq_sqrt.2 (by norm_num)).symm
  have ht : (26 : ℤ).toNat = 26 := rfl
  have hnw : (grid_layout 0 5 800 600).nw = 3 := by
    rw [grid_layout_nw]
    unfold sqrtRound grid_count
    norm_num [ht, hsq]
  refine ⟨hnw, ?_⟩
  rw [grid_layout_nh, hnw]
  unfold grid_count
  norm_num [round_eq]

/-- C5 witness: the formulas theorem applied to five fonts in an 800 by
600 grid area. -/
theorem c5_witness :
    (0 < 600 ∧ (0 : ℤ) ≤ grid_count 0 5 ∧ 1 ≤ (grid_layout 0 5 800 600).nw ∧
      1 ≤ (grid_layout 0 5 800 600).nh) ∧
    ((grid_layout 0 5 800 600).nw =
       round (Real.sqrt ((grid_count 0 5 : ℝ) * ((800 : ℕ) : ℝ) / ((600 : ℕ) : ℝ))) ∧
     (grid_layout 0 5 800 600).nh =
       round ((grid_count 0 5 : ℝ) / ((grid_layout 0 5 800 600).nw : ℝ)) ∧
     (grid_layout 0 5 800 600).bw =
       ⌊((800 : ℕ) : ℝ) / ((grid_layout 0 5 800 600).nw : ℝ)⌋ ∧
     (grid_layout 0 5 800 600).bh =
       ⌊((600 : ℕ) : ℝ) / ((grid_layout 0 5 800 600).nh : ℝ)⌋ ∧
     (generate_grid 0 5 800 600 = none ↔
       ⌊((grid_layout 0 5 800 600).bh : ℝ) * (20 / 100)⌋ - 2 * 5 ≤ 0 ∨
       ((grid_layout 0 5 800 600).bh -
         ⌊((grid_layout 0 5 800 600).bh : ℝ) * (20 / 100)⌋) - 2 * 5 ≤ 0 ∨
       (grid_layout 0 5 800 600).bw - 2 * 5 ≤ 0)) :=
  ⟨⟨by norm_num, by norm_num [grid_count],
    by rw [grid_layout_eval_800_600.1]; norm_num,
    by rw [grid_layout_eval_800_600.2]; norm_num⟩,
   c5_grid_layout_formulas 0 5 800 600 (by norm_num) (by norm_num [grid_count])
     (by rw [grid_layout_eval_800_600.1]; norm_num)
     (by rw [grid_layout_eval_800_600.2]; norm_num)⟩

/-! ## Claim C6 -/

/-- C6 counterexample: for one font in a 1 by 1000 viewport (positive
width and height) the computed column count is
round(sqrt(1 * 1 / 1000)) = 0, not at least 1: the division deriving nh
then divides by zero.  The claim fails for extreme aspect ratios. -/
theorem c6_counterexample :
    1 ≤ grid_count 0 1 ∧ (grid_layout 0 1 1 1000).nw = 0 := by
  constructor
  · norm_num [grid_count]
  · rw [grid_layout_nw]
    unfold sqrtRound grid_count
    norm_num

/-- C6 amended: the column and row counts are both at least 1 for every
effective font count c ≥ 1 and every positive viewport whose aspect ratio
is moderate for that count - namely when H ≤ 4cW and W ≤ 4cH; for more
extreme proportions (such as 1 by 1000 with one font) nw or nh is 0 and
the subsequent divisions divide by zero. -/
theorem c6_amended (m f : ℤ) (W H : ℕ) (hW : 0 < W) (hH : 0 < H)
    (hc : 1 ≤ grid_count m f)
    (h1 : (H : ℤ) ≤ 4 * grid_count m f * W)
    (h2 : (W : ℤ) ≤ 4 * grid_count m f * H) :
    1 ≤ (grid_layout m f W H).nw ∧ 1 ≤ (grid_layout m f W H).nh := by
  have hcQ : (1 : ℚ) ≤ (grid_count m f : ℚ) := by exact_mod_cast hc
  have hHQ : (0 : ℚ) < (H : ℚ) := by exact_mod_cast hH
  have hWQ : (0 : ℚ) < (W : ℚ) := by exact_mod_cast hW
  -- column count is at least 1
  have hq1 : (1 : ℚ) ≤ 4 * ((grid_count m f * W : ℚ) / (H : ℚ)) := by
    rw [show (4 : ℚ) * ((grid_count m f * W : ℚ) / (H : ℚ)) =
        (4 * grid_count m f * W : ℚ) / (H : ℚ) by ring]
    rw [one_le_div hHQ]
    exact_mod_cast h1
  have hnw : 1 ≤ sqrtRound ((grid_count m f * W : ℚ) / (H : ℚ)) :=
    one_le_sqrtRound _ hq1
  refine ⟨by rw [grid_layout_nw]; exact_mod_cast hnw, ?_⟩
  -- column count is at most 2c
  have hc0 : (0 : ℤ) ≤ grid_count m f := by omega
  have htn : (((grid_count m f).toNat : ℕ) : ℚ) = (grid_count m f : ℚ) := by
    exact_mod_cast Int.toNat_of_nonneg hc0
  have hub : 4 * ((grid_count m f * W : ℚ) / (H : ℚ)) <
      (((2 * (2 * (grid_count m f).toNat) + 1) *
        (2 * (2 * (grid_count m f).toNat) + 1) : ℕ) : ℚ) := by
    push_cast
    rw [htn]
    rw [show (4 : ℚ) * ((grid_count m f * W : ℚ) / (H : ℚ)) =
        (4 * grid_count m f * W : ℚ) / (H : ℚ) by ring]
    rw [div_lt_iff hHQ]
    have h2Q : (W : ℚ) ≤ 4 * (grid_count m f : ℚ) * (H : ℚ) := by exact_mod_cast h2
    have hmul := mul_le_mul_of_nonneg_left h2Q
      (show (0 : ℚ) ≤ 4 * (grid_count m f : ℚ) by positivity)
    have hpos : (0 : ℚ) < (8 * (grid_count m f : ℚ) + 1) * (H : ℚ) :=
      mul_pos (by linarith) hHQ
    nlinarith [hmul, hpos]
  have hle : sqrtRound ((grid_count m f * W : ℚ) / (H : ℚ)) ≤
      2 * (grid_count m f).toNat := sqrtRound_le _ _ hub
  -- row count is at least 1
  rw [grid_layout_nh, grid_layout_nw]
  set n : ℕ := sqrtRound ((grid_count m f * W : ℚ) / (H : ℚ)) with hndef
  have hn0 : (0 : ℚ) < ((n : ℤ) : ℚ) := by
    have : (1 : ℕ) ≤ n := hnw
    push_cast
    exact_mod_cast this
  have hn2c : ((n : ℤ) : ℚ) ≤ 2 * (grid_count m f : ℚ) := by
    have : (n : ℤ) ≤ 2 * grid_count m f := by
      have := hle
      omega
    exact_mod_cast this
  rw [round_eq, Int.le_floor]
  have hhalf : (1 : ℚ) / 2 ≤ (grid_count m f : ℚ) / ((n : ℤ) : ℚ) := by
    rw [div_le_div_iff (by norm_num) hn0]
    linarith
  have h1Q : (((1 : ℤ)) : ℚ) = 1 := by norm_num
  rw [h1Q]
  linarith

/-- C6 witness: the amended theorem applied to one font in a 1 by 1
viewport. -/
theorem c6_amended_witness :
    ((0 : ℕ) < 1 ∧ (0 : ℕ) < 1 ∧ 1 ≤ grid_count 0 1 ∧
     ((1 : ℕ) : ℤ) ≤ 4 * grid_count 0 1 * (1 : ℕ) ∧
     ((1 : ℕ) : ℤ) ≤ 4 * grid_count 0 1 * (1 : ℕ)) ∧
    (1 ≤ (grid_layout 0 1 1 1).nw ∧ 1 ≤ (grid_layout 0 1 1 1).nh) :=
  ⟨⟨by norm_num, by norm_num, by norm_num [grid_count],
    by norm_num [grid_count], by norm_num [grid_count]⟩,
   c6_amended 0 1 1 1 (by norm_num) (by norm_num) (by norm_num [grid_count])
     (by norm_num [grid_count]) (by norm_num [grid_count])⟩

end FcChar
